import Mathlib

/-!
Shallow embedding of the certificate-manager reconciliation core
(SheryarButt/certificate-manager): the reconcile state machine
(controllers/certificate_controller.go, certificate_create.go), the
secret/deployment helpers (controllers/certificate_util.go), the
issuance and expiry helpers (pkg/utils/cert/cert_utils.go), and the
validity parsing (pkg/utils: ParseDuration wrapping Go time.ParseDuration
and strconv.Atoi).

Machine integers: Go uint64/int64 arithmetic is modelled on Nat/Int with
the explicit overflow checks the Go source performs; silent int64
wrap-around (the day multiplication in ParseDuration) is modelled by
wrap64. Fallible Go calls returning (T, error) are modelled as
Except String T, and injected store faults are explicit booleans.
-/

namespace CertManager

/-! ## Constants (pkg/constants/constants.go) -/

def TypeCertificate : String := "CERTIFICATE"

def TypePrivateKey : String := "RSA PRIVATE KEY"

def Finalizer : String := "certs.k8c.io/certificate"

def StatusReconciling : String := "Reconciling"

def StatusRotating : String := "Rotating"

def StatusDeleting : String := "Deleting"

def StatusExpired : String := "Expired"

def StatusDeployed : String := "Deployed"

def StatusMessageRotating : String := "Certificate is expired, Regenerating.."

def StatusMessageDeleting : String := "Certificate is being deleted"

def StatusMessageExpired : String := "Certificate is expired"

def StatusMessageDeployed : String := "Certificate deployed successfully"

def CertificateENVName : String := "CERTIFICATE_RESOURCE_VERSION"

def EventCreate : String := "CREATE"

def EventUpdate : String := "UPDATE"

/-! ## Byte-level artefacts

PEM framing and DER certificate payloads are modelled symbolically: a
value of type Bytes records exactly the information the program ever
extracts from the raw bytes. rsa key generation randomness is carried
by an explicit nonce so that two issuances yield distinct bytes. -/

inductive Bytes where
  /-- A PEM block whose payload parses as an x509 certificate with the
  given subject DNS name, validity window and key-generation nonce. -/
  | pemCert (dnsName : String) (notBefore notAfter : Int) (nonce : Nat)
  /-- A PEM block holding an RSA private key. -/
  | pemKey (nonce : Nat)
  /-- A PEM block whose payload is not a parsable certificate. -/
  | pemJunk (payload : List Nat)
  /-- Raw bytes containing no PEM block at all. -/
  | raw (payload : List Nat)
deriving DecidableEq, Repr

/-- Result of x509.ParseCertificate: the fields the program reads. -/
structure X509Cert where
  dnsName : String
  notBefore : Int
  notAfter : Int
  nonce : Nat
deriving DecidableEq, Repr

/-- pem.Decode: returns the first PEM block, or none when the input
contains no PEM block. -/
def pemDecode : Bytes → Option Bytes
  | Bytes.raw _ => none
  | b => some b

/-- x509.ParseCertificate on a PEM block's payload. -/
def parseCertificate : Bytes → Except String X509Cert
  | Bytes.pemCert d nb na no => Except.ok ⟨d, nb, na, no⟩
  | _ => Except.error "x509: malformed certificate"

/-- IsCertificateExpired (pkg/utils/cert/cert_utils.go): pem.Decode; a nil
block yields (false, nil); then x509.ParseCertificate; on success compare
time.Now().After(NotAfter). -/
def IsCertificateExpired (cert : Bytes) (now : Int) : Except String Bool :=
  match pemDecode cert with
  | none => Except.ok false
  | some block =>
    match parseCertificate block with
    | Except.error e => Except.error e
    | Except.ok c => Except.ok (decide (c.notAfter < now))

/-- GetTemplate (cert_utils.go): NotBefore = now, NotAfter = now + validity. -/
def GetTemplate (dnsName : String) (validity : Int) (now : Int) : X509Cert :=
  ⟨dnsName, now, now + validity, 0⟩

/-- CreateSelfSignedCertificate (cert_utils.go): generates an RSA key
(randomness modelled by nonce), builds the template, self-signs it and
PEM-encodes certificate and key. -/
def CreateSelfSignedCertificate (dnsName : String) (validity : Int) (now : Int)
    (nonce : Nat) : Bytes × Bytes :=
  let template := GetTemplate dnsName validity now
  (Bytes.pemCert template.dnsName template.notBefore template.notAfter nonce,
   Bytes.pemKey nonce)

/-! ## Deployment and container model (controllers/certificate_util.go) -/

structure EnvVarM where
  name : String
  value : String
deriving DecidableEq, Repr

structure ContainerM where
  name : String
  env : List EnvVarM
deriving DecidableEq, Repr

/-- A pod-template volume; secretName is some s when volume.Secret is
non-nil with SecretName s. -/
structure VolumeM where
  name : String
  secretName : Option String
deriving DecidableEq, Repr

structure DeploymentM where
  name : String
  ns : String
  volumes : List VolumeM
  containers : List ContainerM
deriving DecidableEq, Repr

/-- Inner loop of getDeploymentsWithMountedSecret: does any volume of the
pod template reference the secret. -/
def mountsSecret (d : DeploymentM) (secretName : String) : Bool :=
  d.volumes.any (fun v => v.secretName == some secretName)

/-- Body of the per-container loop of addEnvToDeployments when an entry
with the certificate ENV name is found: the first matching entry's value
is overwritten in place, the rest of the list is untouched. -/
def replaceFirstCertEnv : List EnvVarM → String → List EnvVarM
  | [], _ => []
  | e :: rest, v =>
    if e.name == CertificateENVName then { e with value := v } :: rest
    else e :: replaceFirstCertEnv rest v

/-- Per-container body of addEnvToDeployments (certificate_util.go): scan
container.Env for CertificateENVName; if found update its value in place
and stop, otherwise append a new entry at the end. -/
def upsertCertEnv (envs : List EnvVarM) (v : String) : List EnvVarM :=
  if envs.any (fun e => e.name == CertificateENVName) then
    replaceFirstCertEnv envs v
  else
    envs ++ [{ name := CertificateENVName, value := v }]

/-- The container loop of addEnvToDeployments over one deployment copy. -/
def addEnvToContainers (cs : List ContainerM) (v : String) : List ContainerM :=
  cs.map (fun c => { c with env := upsertCertEnv c.env v })

/-- Number of environment entries carrying the certificate ENV name. -/
def countCertEnv (envs : List EnvVarM) : Nat :=
  (envs.filter (fun e => e.name == CertificateENVName)).length

/-! ## Duration parsing

utils.ParseDuration (pkg/utils/duration.go) special-cases a trailing d
via strconv.Atoi and otherwise delegates to Go's time.ParseDuration.
Both are ported below; uint64 values are Nat with the explicit overflow
guards of the Go source, durations are Int nanoseconds. -/

/-- Digit accumulator shared by the ports: the value of a decimal digit
string, most significant first. -/
def digitsVal (ds : List Char) : Nat :=
  ds.foldl (fun a c => a * 10 + (c.toNat - 48)) 0

/-- leadingInt (time/format.go): consume [0-9]*, accumulating into a
uint64; error when the accumulator would pass 1 shl 63. -/
def leadingIntGo : Nat → List Char → Except Unit (Nat × List Char)
  | x, [] => Except.ok (x, [])
  | x, c :: rest =>
    if !c.isDigit then Except.ok (x, c :: rest)
    else if x > 2 ^ 63 / 10 then Except.error ()
    else
      let x2 := x * 10 + (c.toNat - 48)
      if x2 > 2 ^ 63 then Except.error ()
      else leadingIntGo x2 rest

/-- leadingFraction (time/format.go): consume [0-9]* after the decimal
point, returning (digits value, scale, remainder); once the accumulator
would overflow, further digits are consumed but ignored. The float64
scale is an exact power of ten in the range used here. -/
def leadingFractionGo : Nat → Nat → Bool → List Char → Nat × Nat × List Char
  | x, scale, _, [] => (x, scale, [])
  | x, scale, overflow, c :: rest =>
    if !c.isDigit then (x, scale, c :: rest)
    else if overflow then leadingFractionGo x scale true rest
    else if x > (2 ^ 63 - 1) / 10 then leadingFractionGo x scale true rest
    else
      let y := x * 10 + (c.toNat - 48)
      if y > 2 ^ 63 then leadingFractionGo x scale true rest
      else leadingFractionGo y (scale * 10) false rest

/-- unitMap (time/format.go): nanoseconds per accepted unit token. -/
def unitMapGo : String → Option Nat
  | "ns" => some 1
  | "us" => some 1000
  | "µs" => some 1000
  | "μs" => some 1000
  | "ms" => some 1000000
  | "s" => some 1000000000
  | "m" => some 60000000000
  | "h" => some 3600000000000
  | _ => none

/-- The Consume (\.[0-9]*)? step of the time.ParseDuration loop: on a
leading decimal point run leadingFraction, otherwise leave the input as
is; the Bool records whether fraction digits were consumed. -/
def parseFraction : List Char → Nat × Nat × List Char × Bool
  | '.' :: s2 =>
    match leadingFractionGo 0 1 false s2 with
    | (f, scale, s3) => (f, scale, s3, s3.length != s2.length)
  | s1 => (0, 1, s1, false)

/-- One iteration plus the rest of the component loop of
time.ParseDuration. fuel bounds the number of iterations; every
iteration consumes at least one character, so the fuel passed by
timeParseDuration (length + 1) is never exhausted. The fractional
contribution uint64(float64(f) * (float64(unit)/scale)) is modelled by
the exact floor f * unit / scale. -/
def parseDurationLoop : Nat → List Char → Nat → Except String Nat
  | _, [], d => Except.ok d
  | 0, _ :: _, _ => Except.error "time: invalid duration"
  | fuel + 1, c0 :: s0, d =>
    if !(c0 == '.' || c0.isDigit) then Except.error "time: invalid duration"
    else
      match leadingIntGo 0 (c0 :: s0) with
      | Except.error _ => Except.error "time: invalid duration"
      | Except.ok (v, s1) =>
        let pre := s1.length != (c0 :: s0).length
        match parseFraction s1 with
        | (f, scale, s4, post) =>
          if !pre && !post then Except.error "time: invalid duration"
          else
            let unitChars := s4.takeWhile (fun c => !(c == '.' || c.isDigit))
            let s5 := s4.dropWhile (fun c => !(c == '.' || c.isDigit))
            if unitChars.length == 0 then
              Except.error "time: missing unit in duration"
            else
              match unitMapGo (String.mk unitChars) with
              | none => Except.error "time: unknown unit in duration"
              | some unit =>
                if v > 2 ^ 63 / unit then Except.error "time: invalid duration"
                else
                  let v2 := v * unit
                  let step :=
                    if f > 0 then
                      let v3 := v2 + f * unit / scale
                      if v3 > 2 ^ 63 then Except.error "time: invalid duration"
                      else Except.ok v3
                    else Except.ok v2
                  match step with
                  | Except.error e => Except.error e
                  | Except.ok v3 =>
                    let d2 := d + v3
                    if d2 > 2 ^ 63 then Except.error "time: invalid duration"
                    else parseDurationLoop fuel s5 d2

/-- time.ParseDuration on the character list of the input. -/
def timeParseDurationL (s0 : List Char) : Except String Int :=
  let signed :=
    match s0 with
    | c :: rest => if c == '-' || c == '+' then (c == '-', rest) else (false, s0)
    | [] => (false, s0)
  match signed with
  | (neg, s1) =>
    if s1 = ['0'] then Except.ok 0
    else if s1 = [] then Except.error "time: invalid duration"
    else
      match parseDurationLoop (s1.length + 1) s1 0 with
      | Except.error e => Except.error e
      | Except.ok d =>
        if neg then Except.ok (-(d : Int))
        else if d > 2 ^ 63 - 1 then Except.error "time: invalid duration"
        else Except.ok (d : Int)

/-- time.ParseDuration (time/format.go). -/
def timeParseDuration (s : String) : Except String Int :=
  timeParseDurationL s.toList

/-- strconv.Atoi on the character list: optional sign, one or more
digits, int64 range check (out-of-range is an error to the caller). -/
def AtoiL (s : List Char) : Except String Int :=
  match s with
  | [] => Except.error "strconv.Atoi: invalid syntax"
  | c :: rest =>
    let signed :=
      if c == '-' then (true, rest)
      else if c == '+' then (false, rest)
      else (false, s)
    match signed with
    | (neg, digits) =>
      if digits = [] then Except.error "strconv.Atoi: invalid syntax"
      else if !digits.all Char.isDigit then
        Except.error "strconv.Atoi: invalid syntax"
      else
        let n := digitsVal digits
        if neg then
          if n > 2 ^ 63 then Except.error "strconv.Atoi: value out of range"
          else Except.ok (-(n : Int))
        else
          if n > 2 ^ 63 - 1 then Except.error "strconv.Atoi: value out of range"
          else Except.ok (n : Int)

/-- strconv.Atoi. -/
def Atoi (s : String) : Except String Int :=
  AtoiL s.toList

/-- Two's-complement wrap of Go int64 arithmetic. -/
def wrap64 (x : Int) : Int :=
  (x + 2 ^ 63) % 2 ^ 64 - 2 ^ 63

/-- ParseDuration (pkg/utils/duration.go): if the input ends in d, trim
it, Atoi the rest and return days * 24 * time.Hour (int64 multiplication,
hence wrap64); otherwise fall back to time.ParseDuration. -/
def ParseDurationL (cs : List Char) : Except String Int :=
  if cs.getLast? = some 'd' then
    match AtoiL cs.dropLast with
    | Except.error _ => Except.error "invalid duration format"
    | Except.ok days => Except.ok (wrap64 (wrap64 (days * 24) * 3600000000000))
  else
    timeParseDurationL cs

/-- utils.ParseDuration. -/
def ParseDuration (validity : String) : Except String Int :=
  ParseDurationL validity.toList

/-! ## Request, secret and world state

The reconcile loop of one CertificateRequest touches exactly one secret
store key, (request namespace, spec.secretRef.name): every Get, Create,
Update and Delete it issues uses that key, so the world carries that one
slot. The global Event variable (certificate_util.go) is written only by
the watch predicates, outside a reconcile invocation, so it enters the
model as the parameter ev. Randomness of key generation is the parameter
nonce; all time.Now() calls of one invocation are the parameter now.
Store faults are injected through the Faults record; a true flag makes
the corresponding client call return an error. -/

structure CertificateSpec where
  dnsName : String
  validity : String
  secretRefName : String
  reloadOnChange : Bool
  purgeOnDelete : Bool
  rotateOnExpiry : Bool
deriving DecidableEq, Repr

structure CertificateStatus where
  status : String
  message : String
  deployedNamespace : String
  expiryDate : Int
deriving DecidableEq, Repr

structure CertificateObj where
  name : String
  ns : String
  deletionTimestamp : Option Int
  finalizers : List String
  spec : CertificateSpec
  status : CertificateStatus
deriving DecidableEq, Repr

structure SecretObj where
  name : String
  ns : String
  secretType : String
  data : List (String × Bytes)
  resourceVersion : Nat
deriving DecidableEq, Repr

/-- Go map read secret.Data[k]. -/
def getData (d : List (String × Bytes)) (k : String) : Option Bytes :=
  (d.find? (fun p => p.1 == k)).map (fun p => p.2)

/-- Go map write secret.Data[k] = v. -/
def setData (d : List (String × Bytes)) (k : String) (v : Bytes) :
    List (String × Bytes) :=
  if d.any (fun p => p.1 == k) then
    d.map (fun p => if p.1 == k then (k, v) else p)
  else d ++ [(k, v)]

structure World where
  cert : Option CertificateObj
  secret : Option SecretObj
  deployments : List DeploymentM
  nextRV : Nat
deriving DecidableEq, Repr

/-- Injected failures of the fallible client calls, one flag per call
site reached by Reconcile. -/
structure Faults where
  statusReconciling : Bool := false
  statusDeleting : Bool := false
  getSecretDelete : Bool := false
  deleteSecret : Bool := false
  updateRemoveFinalizer : Bool := false
  getSecretCreate : Bool := false
  generate : Bool := false
  createOrUpdateSecret : Bool := false
  updateAddFinalizer : Bool := false
  patchDeployments : Bool := false
  statusRotating : Bool := false
  statusExpired : Bool := false
  statusDeployed : Bool := false
deriving DecidableEq, Repr

/-- The fault-free schedule. -/
def Faults.noFault : Faults := {}

/-- Result of SetStatus: the possibly-updated world, the mutated
in-memory instance, and the patch error if any. -/
structure StatusOut where
  w : World
  inst : CertificateObj
  err : Option String
deriving Repr

/-- SetStatus (certificate_util.go): mutate the in-memory instance's
status (ExpiryDate = time.Now().Add(expiryDate)), then patch the status
subresource; on patch failure the store is unchanged but the in-memory
mutation stands. -/
def SetStatus (w : World) (inst : CertificateObj)
    (status message deployedNamespace : String) (expiryDate : Int)
    (now : Int) (fail : Bool) : StatusOut :=
  let inst2 := { inst with
    status := ⟨status, message, deployedNamespace, now + expiryDate⟩ }
  if fail then ⟨w, inst2, some "status patch failed"⟩
  else
    ⟨{ w with cert := w.cert.map (fun c => { c with status := inst2.status }) },
     inst2, none⟩

/-- Result of CreateOrUpdateSecret: the world, the in-memory secret
object after the call (the Get inside overwrites it), and the error. -/
structure SecretOut where
  w : World
  secret : SecretObj
  err : Option String
deriving Repr

/-- CreateOrUpdateSecret (certificate_util.go): first r.Get into the
same object — when the secret exists this replaces every field of the
in-memory object, including freshly written Data, with the stored state —
then Create when absent, else Update (which bumps the resource version
of the stored state that the Get just read back). -/
def CreateOrUpdateSecret (w : World) (s : SecretObj) (fail : Bool) : SecretOut :=
  if fail then ⟨w, s, some "secret store error"⟩
  else
    match w.secret with
    | none =>
      let created := { s with resourceVersion := w.nextRV }
      ⟨{ w with secret := some created, nextRV := w.nextRV + 1 }, created, none⟩
    | some stored =>
      let updated := { stored with resourceVersion := w.nextRV }
      ⟨{ w with secret := some updated, nextRV := w.nextRV + 1 }, updated, none⟩

/-- handleDelete (certificate_create.go): Get the secret (a non-notfound
error propagates), treat absence as success, otherwise Delete it. -/
def handleDelete (w : World) (f : Faults) : World × Option String :=
  if f.getSecretDelete then (w, some "failed to get secret")
  else
    match w.secret with
    | none => (w, none)
    | some _ =>
      if f.deleteSecret then (w, some "failed to delete secret")
      else ({ w with secret := none }, none)

/-- getDeploymentsWithMountedSecret (certificate_util.go): list the
deployments of the request namespace and keep those with a volume backed
by the referenced secret. -/
def getDeploymentsWithMountedSecret (w : World) (reqNs secretName : String) :
    List DeploymentM :=
  (w.deployments.filter (fun d => d.ns == reqNs)).filter
    (fun d => mountsSecret d secretName)

/-- addEnvToDeployments (certificate_util.go): upsert the certificate
ENV, valued with the secret's resource version, on every container of
every deployment mounting the secret, and patch each one. A patch fault
fails the first patch attempt. -/
def addEnvToDeployments (w : World) (reqNs secretName : String) (rv : Nat)
    (fail : Bool) : World × Option String :=
  if fail then
    if getDeploymentsWithMountedSecret w reqNs secretName ≠ [] then
      (w, some "failed to patch deployment")
    else (w, none)
  else
    ({ w with deployments := w.deployments.map (fun d =>
        if d.ns == reqNs && mountsSecret d secretName then
          { d with containers := addEnvToContainers d.containers (toString rv) }
        else d) }, none)

/-- Output of handleCreate: world, in-memory instance, number of
CreateSelfSignedCertificate invocations performed, and the Go return
value (requeue duration or error). -/
structure HCOut where
  w : World
  inst : CertificateObj
  issued : Nat
  res : Except String Int
deriving Repr

/-- The issuance branch of handleCreate (certificate_create.go, taken
when the secret is absent or the global event flag says UPDATE):
GenerateSelfSignedCertificate (= ParseDuration then
CreateSelfSignedCertificate), build a fresh TLS secret object,
CreateOrUpdateSecret it, add the finalizer when purgeOnDelete, notify
deployments when reloadOnChange, fall through to the final
ParseDuration return. SetOwnerReference only mutates the in-memory
secret's metadata and is dropped. -/
def handleCreateIssue (w : World) (inst : CertificateObj) (now : Int)
    (nonce : Nat) (f : Faults) : HCOut :=
  match ParseDuration inst.spec.validity with
  | Except.error e => ⟨w, inst, 0, Except.error e⟩
  | Except.ok validity =>
    if f.generate then ⟨w, inst, 1, Except.error "failed to generate key"⟩
    else
      let pair := CreateSelfSignedCertificate inst.spec.dnsName validity now nonce
      let fresh : SecretObj :=
        { name := inst.spec.secretRefName, ns := inst.ns
          secretType := "kubernetes.io/tls"
          data := [("tls.crt", pair.1), ("tls.key", pair.2)]
          resourceVersion := 0 }
      let so := CreateOrUpdateSecret w fresh f.createOrUpdateSecret
      match so.err with
      | some e => ⟨so.w, inst, 1, Except.error e⟩
      | none =>
        let finStep :=
          if inst.spec.purgeOnDelete then
            let inst2 := { inst with
              finalizers := if Finalizer ∈ inst.finalizers then inst.finalizers
                            else inst.finalizers ++ [Finalizer] }
            if f.updateAddFinalizer then (so.w, inst2, some "failed to update")
            else
              ({ so.w with cert := (so.w.cert.map
                  (fun c => { c with finalizers := inst2.finalizers })) },
               inst2, none)
          else (so.w, inst, none)
        match finStep with
        | (w2, inst2, some e) => ⟨w2, inst2, 1, Except.error e⟩
        | (w2, inst2, none) =>
          if inst2.spec.reloadOnChange then
            let (w3, perr) := addEnvToDeployments w2 inst2.ns
              inst2.spec.secretRefName so.secret.resourceVersion
              f.patchDeployments
            match perr with
            | some e => ⟨w3, inst2, 1, Except.error e⟩
            | none => ⟨w3, inst2, 1, ParseDuration inst2.spec.validity⟩
          else ⟨w2, inst2, 1, ParseDuration inst2.spec.validity⟩

/-- handleCreate (certificate_create.go): Get the secret; when absent or
when the global event flag is UPDATE take the issuance branch; otherwise
inspect the stored certificate: a secret without tls.crt returns (0, nil);
an expired certificate is rotated when rotateOnExpiry (status Rotating,
regenerate, write the two data keys, CreateOrUpdateSecret, notify) and
otherwise only flips the status to Expired; every non-early-return path
ends in ParseDuration(validity). -/
def handleCreate (w : World) (inst : CertificateObj) (ev : String) (now : Int)
    (nonce : Nat) (f : Faults) : HCOut :=
  if f.getSecretCreate then ⟨w, inst, 0, Except.error "failed to get secret"⟩
  else
    match w.secret with
    | none => handleCreateIssue w inst now nonce f
    | some stored =>
      if ev == EventUpdate then handleCreateIssue w inst now nonce f
      else
        match getData stored.data "tls.crt" with
        | none => ⟨w, inst, 0, Except.ok 0⟩
        | some tlsCert =>
          match IsCertificateExpired tlsCert now with
          | Except.error e => ⟨w, inst, 0, Except.error e⟩
          | Except.ok expired =>
            if expired then
              if inst.spec.rotateOnExpiry then
                let st := SetStatus w inst StatusRotating StatusMessageRotating
                  inst.ns 0 now f.statusRotating
                match st.err with
                | some e => ⟨st.w, st.inst, 0, Except.error e⟩
                | none =>
                  match ParseDuration st.inst.spec.validity with
                  | Except.error e => ⟨st.w, st.inst, 0, Except.error e⟩
                  | Except.ok validity =>
                    if f.generate then
                      ⟨st.w, st.inst, 1, Except.error "failed to generate key"⟩
                    else
                      let pair := CreateSelfSignedCertificate
                        st.inst.spec.dnsName validity now nonce
                      let sMem := { stored with
                        data := setData (setData stored.data "tls.crt" pair.1)
                          "tls.key" pair.2 }
                      let so := CreateOrUpdateSecret st.w sMem
                        f.createOrUpdateSecret
                      match so.err with
                      | some e => ⟨so.w, st.inst, 1, Except.error e⟩
                      | none =>
                        if st.inst.spec.reloadOnChange then
                          let (w3, perr) := addEnvToDeployments so.w st.inst.ns
                            st.inst.spec.secretRefName
                            so.secret.resourceVersion f.patchDeployments
                          match perr with
                          | some e => ⟨w3, st.inst, 1, Except.error e⟩
                          | none =>
                            ⟨w3, st.inst, 1, ParseDuration st.inst.spec.validity⟩
                        else
                          ⟨so.w, st.inst, 1, ParseDuration st.inst.spec.validity⟩
              else
                let st := SetStatus w inst StatusExpired StatusMessageExpired
                  inst.ns 0 now f.statusExpired
                match st.err with
                | some e => ⟨st.w, st.inst, 0, Except.error e⟩
                | none => ⟨st.w, st.inst, 0, ParseDuration st.inst.spec.validity⟩
            else ⟨w, inst, 0, ParseDuration inst.spec.validity⟩

/-- Outcome of one Reconcile invocation: final world, controller-runtime
result (Requeue / RequeueAfter), returned error, and the number of
certificate generations performed. -/
structure RecOut where
  w : World
  requeue : Bool
  requeueAfter : Int
  err : Option String
  issued : Nat
deriving Repr

/-- Reconcile (certificate_controller.go): fetch the instance (absence is
convergence); set status Reconciling; on a deletion timestamp run the
purge path when purgeOnDelete (status Deleting, handleDelete, remove the
finalizer and update) and always return DoNotRequeue; otherwise run
handleCreate, set status Deployed with the returned duration
unconditionally, and requeue after that duration iff rotateOnExpiry. -/
def Reconcile (w : World) (ev : String) (now : Int) (nonce : Nat)
    (f : Faults) : RecOut :=
  match w.cert with
  | none => ⟨w, false, 0, none, 0⟩
  | some inst0 =>
    let st1 := SetStatus w inst0 "Reconciling" "Certificate is being reconciled"
      inst0.ns 0 now f.statusReconciling
    match st1.err with
    | some e => ⟨st1.w, false, 0, some e, 0⟩
    | none =>
      match st1.inst.deletionTimestamp with
      | some _ =>
        if st1.inst.spec.purgeOnDelete then
          let st2 := SetStatus st1.w st1.inst StatusDeleting
            StatusMessageDeleting st1.inst.ns 0 now f.statusDeleting
          match st2.err with
          | some e => ⟨st2.w, false, 0, some e, 0⟩
          | none =>
            let (w3, derr) := handleDelete st2.w f
            match derr with
            | some e => ⟨w3, false, 0, some e, 0⟩
            | none =>
              let inst3 := { st2.inst with
                finalizers := st2.inst.finalizers.filter
                  (fun x => decide (x ≠ Finalizer)) }
              if f.updateRemoveFinalizer then
                ⟨w3, false, 0, some "failed to update", 0⟩
              else
                ⟨{ w3 with cert := (w3.cert.map
                    (fun c => { c with finalizers := inst3.finalizers })) },
                 false, 0, none, 0⟩
        else ⟨st1.w, false, 0, none, 0⟩
      | none =>
        let hc := handleCreate st1.w st1.inst ev now nonce f
        match hc.res with
        | Except.error e => ⟨hc.w, false, 0, some e, hc.issued⟩
        | Except.ok duration =>
          let st4 := SetStatus hc.w hc.inst "Deployed"
            "Certificate deployed successfully" hc.inst.ns duration now
            f.statusDeployed
          match st4.err with
          | some e => ⟨st4.w, false, 0, some e, hc.issued⟩
          | none =>
            if hc.inst.spec.rotateOnExpiry then
              ⟨st4.w, true, duration, none, hc.issued⟩
            else ⟨st4.w, false, 0, none, hc.issued⟩

/-! ## Environment upsert lemmas (claim C3) -/

theorem countCertEnv_cons (e : EnvVarM) (rest : List EnvVarM) :
    countCertEnv (e :: rest) =
      (if e.name = CertificateENVName then 1 else 0) + countCertEnv rest := by
  by_cases h : e.name = CertificateENVName <;>
    simp [countCertEnv, List.filter_cons, h, Nat.add_comm]

theorem countCertEnv_append (l1 l2 : List EnvVarM) :
    countCertEnv (l1 ++ l2) = countCertEnv l1 + countCertEnv l2 := by
  simp [countCertEnv, List.filter_append]

theorem countCertEnv_eq_zero (envs : List EnvVarM) :
    countCertEnv envs = 0 ↔ ∀ e ∈ envs, e.name ≠ CertificateENVName := by
  simp [countCertEnv, List.length_eq_zero, List.filter_eq_nil_iff]

theorem one_le_countCertEnv (envs : List EnvVarM) (e : EnvVarM)
    (he : e ∈ envs) (hn : e.name = CertificateENVName) :
    1 ≤ countCertEnv envs := by
  have hmem : e ∈ envs.filter (fun x => x.name == CertificateENVName) := by
    simp [List.mem_filter, he, hn]
  exact Nat.succ_le_of_lt (List.length_pos.2 (List.ne_nil_of_mem hmem))

theorem countCertEnv_replaceFirstCertEnv (envs : List EnvVarM) (v : String) :
    countCertEnv (replaceFirstCertEnv envs v) = countCertEnv envs := by
  induction envs with
  | nil => rfl
  | cons e rest ih =>
    by_cases h : e.name = CertificateENVName <;>
      simp [replaceFirstCertEnv, countCertEnv_cons, h, ih]

theorem replaceFirstCertEnv_value (envs : List EnvVarM) (v : String)
    (h : countCertEnv envs ≤ 1) :
    ∀ e ∈ replaceFirstCertEnv envs v, e.name = CertificateENVName → e.value = v := by
  induction envs with
  | nil => simp [replaceFirstCertEnv]
  | cons e rest ih =>
    by_cases hname : e.name = CertificateENVName
    · have hcount := countCertEnv_cons e rest
      rw [if_pos hname] at hcount
      have hrest : countCertEnv rest = 0 := by omega
      intro x hx hxname
      simp only [replaceFirstCertEnv, hname, beq_self_eq_true, if_true,
        List.mem_cons] at hx
      rcases hx with rfl | hx
      · rfl
      · exact absurd hxname ((countCertEnv_eq_zero rest).1 hrest x hx)
    · have hcount := countCertEnv_cons e rest
      rw [if_neg hname] at hcount
      intro x hx hxname
      have hb : (e.name == CertificateENVName) = false := by
        simpa using hname
      simp only [replaceFirstCertEnv, hb, Bool.false_eq_true, if_false,
        List.mem_cons] at hx
      rcases hx with rfl | hx
      · exact absurd hxname hname
      · exact ih (by omega) x hx hxname

theorem upsertCertEnv_count (envs : List EnvVarM) (v : String)
    (h : countCertEnv envs ≤ 1) : countCertEnv (upsertCertEnv envs v) = 1 := by
  unfold upsertCertEnv
  split
  · rename_i hany
    rw [countCertEnv_replaceFirstCertEnv]
    obtain ⟨e, he, hn⟩ : ∃ e ∈ envs, e.name = CertificateENVName := by
      simpa using hany
    have := one_le_countCertEnv envs e he hn
    omega
  · rename_i hany
    have hzero : countCertEnv envs = 0 := by
      rw [countCertEnv_eq_zero]
      intro e he hn
      exact hany (by simp [List.any_eq_true]; exact ⟨e, he, hn⟩)
    rw [countCertEnv_append, hzero]
    rfl

theorem upsertCertEnv_value (envs : List EnvVarM) (v : String)
    (h : countCertEnv envs ≤ 1) :
    ∀ e ∈ upsertCertEnv envs v, e.name = CertificateENVName → e.value = v := by
  unfold upsertCertEnv
  split
  · exact replaceFirstCertEnv_value envs v h
  · rename_i hany
    intro x hx hxname
    rcases List.mem_append.1 hx with hx | hx
    · exact absurd (by simp [List.any_eq_true]; exact ⟨x, hx, hxname⟩) hany
    · simp only [List.mem_singleton] at hx
      subst hx
      rfl

theorem countCertEnv_foldl_le (ts : List String) (envs : List EnvVarM)
    (h : countCertEnv envs ≤ 1) :
    countCertEnv (List.foldl upsertCertEnv envs ts) ≤ 1 := by
  induction ts generalizing envs with
  | nil => simpa
  | cons t ts ih =>
    simp only [List.foldl_cons]
    exact ih _ (Nat.le_of_eq (upsertCertEnv_count envs t h))

/-- C3: every notify pass performed by addEnvToDeployments upserts the
certificate ENV entry: starting from a container environment holding at
most one such entry, a single pass leaves exactly one entry valued with
the current version token, any sequence of passes (initial issuance plus
repeated rotations) still leaves exactly one entry valued with the last
token — duplicates never appear — and the same holds for every container
of a patched deployment. -/
theorem addEnv_exactly_one_entry (envs : List EnvVarM) (v : String)
    (ts : List String) (h : countCertEnv envs ≤ 1) :
    (countCertEnv (upsertCertEnv envs v) = 1
      ∧ ∀ e ∈ upsertCertEnv envs v, e.name = CertificateENVName → e.value = v)
    ∧ (countCertEnv (List.foldl upsertCertEnv envs (ts ++ [v])) = 1
      ∧ ∀ e ∈ List.foldl upsertCertEnv envs (ts ++ [v]),
          e.name = CertificateENVName → e.value = v)
    ∧ (∀ cs : List ContainerM, (∀ c ∈ cs, countCertEnv c.env ≤ 1) →
        ∀ c2 ∈ addEnvToContainers cs v, countCertEnv c2.env = 1
          ∧ ∀ e ∈ c2.env, e.name = CertificateENVName → e.value = v) := by
  refine ⟨⟨upsertCertEnv_count envs v h, upsertCertEnv_value envs v h⟩, ⟨?_, ?_⟩, ?_⟩
  · rw [List.foldl_append]
    exact upsertCertEnv_count _ v (countCertEnv_foldl_le ts envs h)
  · rw [List.foldl_append]
    exact upsertCertEnv_value _ v (countCertEnv_foldl_le ts envs h)
  · intro cs hcs c2 hc2
    simp only [addEnvToContainers, List.mem_map] at hc2
    obtain ⟨c, hc, rfl⟩ := hc2
    exact ⟨upsertCertEnv_count c.env v (hcs c hc),
      upsertCertEnv_value c.env v (hcs c hc)⟩

/-- Witness for C3 at a concrete container environment and token history. -/
theorem addEnv_exactly_one_entry_witness :
    countCertEnv (List.foldl upsertCertEnv
      [{ name := "PATH", value := "p" }] (["7", "9"] ++ ["42"])) = 1 :=
  ((addEnv_exactly_one_entry [{ name := "PATH", value := "p" }] "42" ["7", "9"]
    (by decide)).2.1).1

/-! ## Expiry check behaviour (claim C5) -/

/-- C5 counterexample: on bytes holding no PEM block at all,
IsCertificateExpired returns (false, nil) — an ok false, not an error —
refuting the claim that a decode failure raises an explicit error. -/
theorem isCertificateExpired_silent_false :
    IsCertificateExpired (Bytes.raw []) 0 = Except.ok false := rfl

/-- C5 amended: on every byte sequence in which no PEM block can be
decoded, IsCertificateExpired silently returns false with no error; an
explicit error is raised only when a PEM block decodes but its payload
fails x509 certificate parsing (for instance an RSA key block). -/
theorem isCertificateExpired_decode_amended :
    (∀ b : Bytes, ∀ now : Int, pemDecode b = none →
      IsCertificateExpired b now = Except.ok false)
    ∧ (∀ p : List Nat, ∀ now : Int,
        IsCertificateExpired (Bytes.pemJunk p) now
          = Except.error "x509: malformed certificate")
    ∧ (∀ n : Nat, ∀ now : Int,
        IsCertificateExpired (Bytes.pemKey n) now
          = Except.error "x509: malformed certificate") := by
  refine ⟨?_, ?_, ?_⟩
  · intro b now h
    unfold IsCertificateExpired
    rw [h]
  · intro p now
    rfl
  · intro n now
    rfl

/-- Witness for the amended C5 at concrete undecodable bytes. -/
theorem isCertificateExpired_decode_amended_witness :
    IsCertificateExpired (Bytes.raw [0, 1, 2]) 7 = Except.ok false :=
  isCertificateExpired_decode_amended.1 (Bytes.raw [0, 1, 2]) 7 rfl

/-! ## Validity parsing lemmas (claim C4) -/

/-- The grammar stated by the specification for the validity field:
one or more decimal digits followed by one unit letter s, m, h or d.
This definition follows the specification text, for comparison with the
behaviour of the ParseDuration implementation. -/
def matchesValidityGrammar (s : String) : Bool :=
  let cs := s.toList
  match cs.getLast? with
  | none => false
  | some u =>
    (u == 's' || u == 'm' || u == 'h' || u == 'd')
      && !cs.dropLast.isEmpty && cs.dropLast.all Char.isDigit

/-- C4 counterexample: "1h30m" does not match the specified grammar, yet
ParseDuration accepts it (90 minutes), refuting the claim that every
input outside the grammar fails validation. -/
theorem parseDuration_beyond_grammar :
    ParseDuration "1h30m" = Except.ok 5400000000000
      ∧ matchesValidityGrammar "1h30m" = false := by
  exact ⟨rfl, rfl⟩

theorem digitsVal_go (ds : List Char) (y : Nat) :
    ds.foldl (fun a c => a * 10 + (c.toNat - 48)) y
      = y * 10 ^ ds.length + digitsVal ds := by
  induction ds generalizing y with
  | nil => simp [digitsVal]
  | cons c ds ih =>
    have h1 := ih (y * 10 + (c.toNat - 48))
    have h2 := ih (c.toNat - 48)
    simp only [digitsVal, List.foldl_cons, List.length_cons, Nat.zero_mul,
      Nat.zero_add] at h1 h2 ⊢
    rw [h1, h2]
    ring

theorem leadingIntGo_digits (x : Nat) (ds rest : List Char)
    (hds : ∀ c ∈ ds, c.isDigit = true)
    (hrest : ∀ c, rest.head? = some c → c.isDigit = false)
    (h : x * 10 ^ ds.length + digitsVal ds ≤ 2 ^ 63) :
    leadingIntGo x (ds ++ rest)
      = Except.ok (x * 10 ^ ds.length + digitsVal ds, rest) := by
  induction ds generalizing x with
  | nil =>
    simp only [List.nil_append, List.length_nil, Nat.pow_zero, Nat.mul_one]
    match rest with
    | [] => simp [leadingIntGo, digitsVal]
    | c :: rest2 =>
      have hc : c.isDigit = false := hrest c rfl
      simp [leadingIntGo, hc, digitsVal]
  | cons c ds ih =>
    have hc : c.isDigit = true := hds c (by simp)
    have hval : digitsVal (c :: ds)
        = (c.toNat - 48) * 10 ^ ds.length + digitsVal ds := by
      simpa [digitsVal] using digitsVal_go ds (c.toNat - 48)
    have heq : x * 10 ^ (c :: ds).length + digitsVal (c :: ds)
        = (x * 10 + (c.toNat - 48)) * 10 ^ ds.length + digitsVal ds := by
      rw [hval, List.length_cons, Nat.pow_succ]
      ring
    have hle : (x * 10 + (c.toNat - 48)) * 10 ^ ds.length + digitsVal ds ≤ 2 ^ 63 := by
      rw [← heq]
      exact h
    have hpos : 0 < 10 ^ ds.length := Nat.pos_pow_of_pos _ (by norm_num)
    have hx10 : x * 10 ≤ 2 ^ 63 := by
      have h1 : x * 10 ≤ (x * 10 + (c.toNat - 48)) * 10 ^ ds.length := by
        calc x * 10 ≤ (x * 10 + (c.toNat - 48)) * 1 := by omega
        _ ≤ (x * 10 + (c.toNat - 48)) * 10 ^ ds.length :=
          Nat.mul_le_mul_left _ hpos
      omega
    have hxdiv : ¬ x > 2 ^ 63 / 10 := by
      have := (Nat.le_div_iff_mul_le (by norm_num : 0 < 10)).2 hx10
      omega
    have hx2 : ¬ x * 10 + (c.toNat - 48) > 2 ^ 63 := by
      have h1 : x * 10 + (c.toNat - 48)
          ≤ (x * 10 + (c.toNat - 48)) * 10 ^ ds.length := by
        calc x * 10 + (c.toNat - 48) = (x * 10 + (c.toNat - 48)) * 1 := by omega
        _ ≤ (x * 10 + (c.toNat - 48)) * 10 ^ ds.length :=
          Nat.mul_le_mul_left _ hpos
      omega
    have hrec := ih (x * 10 + (c.toNat - 48))
      (fun a ha => hds a (by simp [ha])) hle
    have hstep : leadingIntGo x (c :: (ds ++ rest))
        = leadingIntGo (x * 10 + (c.toNat - 48)) (ds ++ rest) := by
      conv_lhs => rw [leadingIntGo]
      rw [hc]
      simp only [Bool.not_true, Bool.false_eq_true, if_false]
      rw [if_neg hxdiv, if_neg hx2]
    rw [List.cons_append, hstep, hrec, heq]

theorem digit_not_sign (c : Char) (hc : c.isDigit = true) :
    (c == '-') = false ∧ (c == '+') = false := by
  constructor
  · rcases Bool.eq_false_or_eq_true (c == '-') with h | h
    · have : c = '-' := by simpa using h
      subst this
      exact absurd hc (by decide)
    · exact h
  · rcases Bool.eq_false_or_eq_true (c == '+') with h | h
    · have : c = '+' := by simpa using h
      subst this
      exact absurd hc (by decide)
    · exact h

theorem AtoiL_digits (ds : List Char) (hne : ds ≠ [])
    (hds : ∀ c ∈ ds, c.isDigit = true) (hle : digitsVal ds ≤ 2 ^ 63 - 1) :
    AtoiL ds = Except.ok ((digitsVal ds : Int)) := by
  match ds, hne with
  | c :: rest, _ =>
    have hc : c.isDigit = true := hds c (by simp)
    obtain ⟨hcm, hcp⟩ := digit_not_sign c hc
    have hall : (c :: rest).all Char.isDigit = true := by
      rw [List.all_eq_true]
      exact hds
    unfold AtoiL
    simp only [hcm, hcp, Bool.false_eq_true, if_false, hall, Bool.not_true,
      reduceCtorEq]
    rw [if_neg (by omega : ¬ digitsVal (c :: rest) > 2 ^ 63 - 1)]

theorem wrap64_eq_self (x : Int) (h1 : -(2 ^ 63) ≤ x) (h2 : x < 2 ^ 63) :
    wrap64 x = x := by
  unfold wrap64
  rw [Int.emod_eq_of_lt (by omega) (by omega)]
  omega

theorem parseDuration_days (ds : List Char) (hne : ds ≠ [])
    (hds : ∀ c ∈ ds, c.isDigit = true)
    (hle : digitsVal ds * 86400000000000 ≤ 2 ^ 63 - 1) :
    ParseDurationL (ds ++ ['d'])
      = Except.ok ((digitsVal ds * 86400000000000 : Nat) : Int) := by
  have hlast : (ds ++ ['d']).getLast? = some 'd' := by
    rw [List.getLast?_append]
    rfl
  have hdrop : (ds ++ ['d']).dropLast = ds := by
    simp
  have hn : digitsVal ds ≤ 2 ^ 63 - 1 := by
    have h1 : digitsVal ds ≤ digitsVal ds * 86400000000000 :=
      Nat.le_mul_of_pos_right _ (by norm_num)
    omega
  unfold ParseDurationL
  rw [if_pos hlast, hdrop, AtoiL_digits ds hne hds hn]
  show Except.ok (wrap64 (wrap64 ((digitsVal ds : Int) * 24) * 3600000000000)) = _
  have h24 : wrap64 ((digitsVal ds : Int) * 24) = (digitsVal ds : Int) * 24 := by
    apply wrap64_eq_self <;> omega
  rw [h24]
  have hfull : wrap64 ((digitsVal ds : Int) * 24 * 3600000000000)
      = (digitsVal ds : Int) * 24 * 3600000000000 := by
    have harg : (digitsVal ds : Int) * 24 * 3600000000000
        = (digitsVal ds : Int) * 86400000000000 := by ring
    rw [harg]
    apply wrap64_eq_self <;> omega
  rw [hfull]
  exact congrArg Except.ok (by push_cast; ring)

theorem parseDurationLoop_nil (fuel d : Nat) :
    parseDurationLoop fuel [] d = Except.ok d := by
  cases fuel <;> rfl

theorem parseDurationLoop_digits_unit (fuel : Nat) (c0 : Char) (ds0 : List Char)
    (u : Char) (uv d : Nat)
    (hds : ∀ c ∈ c0 :: ds0, c.isDigit = true)
    (hud : u.isDigit = false) (hudot : (u == '.') = false)
    (humap : unitMapGo (String.mk [u]) = some uv) (huv : 0 < uv)
    (hd : d + digitsVal (c0 :: ds0) * uv ≤ 2 ^ 63) :
    parseDurationLoop (fuel + 1) (c0 :: (ds0 ++ [u])) d
      = Except.ok (d + digitsVal (c0 :: ds0) * uv) := by
  have hc0 : c0.isDigit = true := hds c0 (by simp)
  have hvle : digitsVal (c0 :: ds0) ≤ 2 ^ 63 := by
    have h1 : digitsVal (c0 :: ds0) ≤ digitsVal (c0 :: ds0) * uv :=
      Nat.le_mul_of_pos_right _ huv
    omega
  have hLI : leadingIntGo 0 (c0 :: (ds0 ++ [u]))
      = Except.ok (digitsVal (c0 :: ds0), [u]) := by
    have h := leadingIntGo_digits 0 (c0 :: ds0) [u] hds
      (fun c hcq => by
        obtain rfl : u = c := by simpa using hcq
        exact hud)
      (by simpa using hvle)
    simpa using h
  have hdiv : ¬ digitsVal (c0 :: ds0) > 2 ^ 63 / uv := by
    have h1 : digitsVal (c0 :: ds0) * uv ≤ 2 ^ 63 := by omega
    have := (Nat.le_div_iff_mul_le huv).2 h1
    omega
  have hpu : (!(u == '.' || u.isDigit)) = true := by
    rw [hudot, hud]
    rfl
  have hfrac : parseFraction [u] = (0, 1, [u], false) := by
    unfold parseFraction
    split
    · rename_i s2 heq
      exfalso
      injection heq with h1 h2
      rw [h1] at hudot
      simp at hudot
    · rfl
  have hpre : ([u].length != (c0 :: (ds0 ++ [u])).length) = true := by
    simp [bne_iff_ne]
  have htake : List.takeWhile (fun c => !(c == '.' || c.isDigit)) [u] = [u] := by
    rw [List.takeWhile_cons, if_pos hpu]
    rfl
  have hdropw : List.dropWhile (fun c => !(c == '.' || c.isDigit)) [u] = [] := by
    rw [List.dropWhile_cons, if_pos hpu]
    rfl
  have hd2 : ¬ d + digitsVal (c0 :: ds0) * uv > 2 ^ 63 := by omega
  conv_lhs => rw [parseDurationLoop]
  simp only [hc0, Bool.or_true, Bool.not_true, Bool.false_eq_true, if_false,
    hLI, hfrac, hpre, htake, hdropw, Bool.not_false, Bool.false_and]
  rw [if_neg (by simp : ¬ (([u].length == 0) = true))]
  rw [humap]
  dsimp only
  rw [if_neg hdiv]
  rw [if_neg (by omega : ¬ (0 : Nat) > 0)]
  dsimp only
  rw [if_neg hd2, parseDurationLoop_nil]

theorem timeParseDurationL_digits_unit (ds : List Char) (u : Char) (uv : Nat)
    (hne : ds ≠ []) (hds : ∀ c ∈ ds, c.isDigit = true)
    (hud : u.isDigit = false) (hudot : (u == '.') = false)
    (humap : unitMapGo (String.mk [u]) = some uv) (huv : 0 < uv)
    (hle : digitsVal ds * uv ≤ 2 ^ 63 - 1) :
    timeParseDurationL (ds ++ [u])
      = Except.ok ((digitsVal ds * uv : Nat) : Int) := by
  match ds, hne with
  | c0 :: ds0, _ =>
    have hc0 : c0.isDigit = true := hds c0 (by simp)
    obtain ⟨hcm, hcp⟩ := digit_not_sign c0 hc0
    have hloop := parseDurationLoop_digits_unit ((ds0 ++ [u]).length + 1) c0 ds0
      u uv 0 hds hud hudot humap huv (by omega)
    unfold timeParseDurationL
    rw [List.cons_append]
    dsimp only
    rw [hcm, hcp]
    simp only [Bool.or_self, Bool.false_eq_true, if_false]
    rw [if_neg (by simp : ¬ (c0 :: (ds0 ++ [u])) = ['0'])]
    rw [if_neg (by simp : ¬ (c0 :: (ds0 ++ [u])) = [])]
    rw [show (c0 :: (ds0 ++ [u])).length + 1 = ((ds0 ++ [u]).length + 1) + 1 by
      simp]
    rw [hloop]
    dsimp only
    rw [if_neg (by omega : ¬ 0 + digitsVal (c0 :: ds0) * uv > 2 ^ 63 - 1)]
    rw [Nat.zero_add]

/-- C4 amended: ParseDuration accepts every string of the grammar
[0-9]+(s|m|h|d) with the stated semantics — a day count n yields
n * 24 hours whenever that duration fits the int64 nanosecond
representation, and the single units s, m and h yield the standard
durations — and the non-grammar string "10x" fails validation; but
acceptance is not exact: delegation to Go's time.ParseDuration also
accepts multi-component, fractional and signed duration strings such as
"1h30m", which lie outside the grammar. -/
theorem parseDuration_grammar_amended :
    (∀ ds : List Char, ds ≠ [] → (∀ c ∈ ds, c.isDigit = true) →
      digitsVal ds * 86400000000000 ≤ 2 ^ 63 - 1 →
      ParseDuration (String.mk (ds ++ ['d']))
        = Except.ok ((digitsVal ds * 86400000000000 : Nat) : Int))
    ∧ (∀ ds : List Char, ∀ u : Char, ∀ uv : Nat, ds ≠ [] →
        (∀ c ∈ ds, c.isDigit = true) →
        ((u = 's' ∧ uv = 1000000000) ∨ (u = 'm' ∧ uv = 60000000000)
          ∨ (u = 'h' ∧ uv = 3600000000000)) →
        digitsVal ds * uv ≤ 2 ^ 63 - 1 →
        ParseDuration (String.mk (ds ++ [u]))
          = Except.ok ((digitsVal ds * uv : Nat) : Int))
    ∧ ParseDuration "10x" = Except.error "time: unknown unit in duration"
    ∧ ParseDuration "2d" = Except.ok 172800000000000 := by
  refine ⟨?_, ?_, rfl, rfl⟩
  · intro ds hne hds hle
    exact parseDuration_days ds hne hds hle
  · intro ds u uv hne hds hu hle
    have hlast : (ds ++ [u]).getLast? = some u := by
      rw [List.getLast?_append]
      rfl
    obtain ⟨rfl, rfl⟩ | ⟨rfl, rfl⟩ | ⟨rfl, rfl⟩ := hu
    · show ParseDurationL (ds ++ ['s']) = _
      unfold ParseDurationL
      rw [if_neg (by rw [hlast]; simp)]
      exact timeParseDurationL_digits_unit ds 's' 1000000000 hne hds
        (by decide) (by decide) (by decide) (by norm_num) hle
    · show ParseDurationL (ds ++ ['m']) = _
      unfold ParseDurationL
      rw [if_neg (by rw [hlast]; simp)]
      exact timeParseDurationL_digits_unit ds 'm' 60000000000 hne hds
        (by decide) (by decide) (by decide) (by norm_num) hle
    · show ParseDurationL (ds ++ ['h']) = _
      unfold ParseDurationL
      rw [if_neg (by rw [hlast]; simp)]
      exact timeParseDurationL_digits_unit ds 'h' 3600000000000 hne hds
        (by decide) (by decide) (by decide) (by norm_num) hle

/-- Witness for the amended C4: the day and hour branches at the
specification's own examples. -/
theorem parseDuration_grammar_amended_witness :
    ParseDuration (String.mk (['2'] ++ ['d']))
      = Except.ok ((digitsVal ['2'] * 86400000000000 : Nat) : Int)
    ∧ ParseDuration (String.mk (['1'] ++ ['h']))
      = Except.ok ((digitsVal ['1'] * 3600000000000 : Nat) : Int) :=
  ⟨parseDuration_grammar_amended.1 ['2'] (by decide) (by decide) (by decide),
   parseDuration_grammar_amended.2.1 ['1'] 'h' 3600000000000 (by decide)
     (by decide) (Or.inr (Or.inr ⟨rfl, rfl⟩)) (by decide)⟩

/-! ## Concrete scenario worlds for the reconcile-level claims -/

/-- A concrete request spec: example.org, 1h validity, secret test-secret. -/
def exSpec (purge reload rot : Bool) : CertificateSpec :=
  { dnsName := "example.org"
    validity := "1h"
    secretRefName := "test-secret"
    reloadOnChange := reload
    purgeOnDelete := purge
    rotateOnExpiry := rot }

/-- A concrete request object in namespace default. -/
def exCert (dt : Option Int) (fins : List String)
    (purge reload rot : Bool) : CertificateObj :=
  { name := "test-certificate"
    ns := "default"
    deletionTimestamp := dt
    finalizers := fins
    spec := exSpec purge reload rot
    status := ⟨"", "", "", 0⟩ }

/-- A stored secret holding a certificate that expired at time 5. -/
def exOldSecret : SecretObj :=
  { name := "test-secret"
    ns := "default"
    secretType := "kubernetes.io/tls"
    data := [("tls.crt", Bytes.pemCert "example.org" 0 5 1),
             ("tls.key", Bytes.pemKey 1)]
    resourceVersion := 7 }

/-- World: active request, expired stored material. -/
def exExpiredWorld (rot : Bool) : World :=
  { cert := some (exCert none [] false false rot)
    secret := some exOldSecret
    deployments := []
    nextRV := 8 }

/-! ## Claim C1: rotation on expiry -/

/-- C1 (code bug): with rotateOnExpiry enabled and the stored certificate
expired (notAfter 5, reconciled at now 10), one invocation generates
fresh material exactly once, ends in phase Deployed and requeues after
the parsed 1h validity — but the material stored under secretRef still
holds the old certificate and key bytes, not the freshly generated ones:
CreateOrUpdateSecret first Gets the stored secret into the very object
holding the fresh data, so the subsequent Update writes the old bytes
back and only the resource version changes. -/
theorem rotation_discards_fresh_material :
    (Reconcile (exExpiredWorld true) "CREATE" 10 2 Faults.noFault).issued = 1
    ∧ ((Reconcile (exExpiredWorld true) "CREATE" 10 2 Faults.noFault).w.secret.map
        (fun s => getData s.data "tls.crt"))
      = some (some (Bytes.pemCert "example.org" 0 5 1))
    ∧ ((Reconcile (exExpiredWorld true) "CREATE" 10 2 Faults.noFault).w.secret.map
        (fun s => getData s.data "tls.crt"))
      ≠ some (some (CreateSelfSignedCertificate "example.org" 3600000000000 10 2).1)
    ∧ ((Reconcile (exExpiredWorld true) "CREATE" 10 2 Faults.noFault).w.cert.map
        (fun c => c.status.status)) = some "Deployed"
    ∧ (Reconcile (exExpiredWorld true) "CREATE" 10 2 Faults.noFault).requeue = true
    ∧ (Reconcile (exExpiredWorld true) "CREATE" 10 2 Faults.noFault).requeueAfter
      = 3600000000000
    ∧ (Reconcile (exExpiredWorld true) "CREATE" 10 2 Faults.noFault).err = none := by
  decide

/-! ## Claim C2: expired material without rotation -/

/-- C2 (code bug): with rotateOnExpiry disabled and the stored material
expired, reconcile leaves the material untouched (same bytes, same
resource version) and schedules no requeue — but the final stored phase
is Deployed, not Expired: Reconcile sets status Deployed unconditionally
after handleCreate returns, overwriting the Expired status handleCreate
had just written, although the repository's own test
TestCertificateWithRotateOnExpirySetToFalse asserts the phase stays
Expired. -/
theorem expired_phase_overwritten :
    ((Reconcile (exExpiredWorld false) "CREATE" 10 2 Faults.noFault).w.cert.map
        (fun c => c.status.status)) = some "Deployed"
    ∧ ((Reconcile (exExpiredWorld false) "CREATE" 10 2 Faults.noFault).w.cert.map
        (fun c => c.status.status)) ≠ some "Expired"
    ∧ (Reconcile (exExpiredWorld false) "CREATE" 10 2 Faults.noFault).w.secret
      = some exOldSecret
    ∧ (Reconcile (exExpiredWorld false) "CREATE" 10 2 Faults.noFault).requeue = false
    ∧ (Reconcile (exExpiredWorld false) "CREATE" 10 2 Faults.noFault).err = none
    ∧ (Reconcile (exExpiredWorld false) "CREATE" 10 2 Faults.noFault).issued = 0 := by
  decide

/-! ## Claim C6: purge ordering on deletion -/

/-- C6: for a deletion-requested request with purgeOnDelete, across every
fault schedule: the stored finalizer is only ever cleared in a final
state whose material is gone; an error-free invocation ends with phase
Deleting, the material deleted, the finalizer cleared and no requeue;
every failing invocation returns the error with the stored finalizer
list unchanged; and a failure of the material deletion or of the
finalizer-clear write does surface as an error. -/
theorem reconcile_purge_ordering (w : World) (c : CertificateObj) (ev : String)
    (now t : Int) (nonce : Nat) (f : Faults)
    (hc : w.cert = some c) (hdel : c.deletionTimestamp = some t)
    (hpurge : c.spec.purgeOnDelete = true)
    (hfin : Finalizer ∈ c.finalizers) :
    (∀ c2, (Reconcile w ev now nonce f).w.cert = some c2 →
        Finalizer ∉ c2.finalizers → (Reconcile w ev now nonce f).w.secret = none)
    ∧ ((Reconcile w ev now nonce f).err = none →
        (Reconcile w ev now nonce f).w.secret = none
        ∧ (Reconcile w ev now nonce f).requeue = false
        ∧ ∃ c2, (Reconcile w ev now nonce f).w.cert = some c2
            ∧ Finalizer ∉ c2.finalizers ∧ c2.status.status = StatusDeleting)
    ∧ ((Reconcile w ev now nonce f).err ≠ none →
        ∀ c2, (Reconcile w ev now nonce f).w.cert = some c2 →
          c2.finalizers = c.finalizers)
    ∧ (f.statusReconciling = false → f.statusDeleting = false →
        f.getSecretDelete = false →
        ((f.deleteSecret = true ∧ w.secret ≠ none)
          ∨ (f.deleteSecret = false ∧ f.updateRemoveFinalizer = true)) →
        (Reconcile w ev now nonce f).err ≠ none) := by
  unfold Reconcile SetStatus handleDelete
  rw [hc]
  cases hf1 : f.statusReconciling
  case true =>
    simp only [if_true]
    refine ⟨?_, ?_, ?_, ?_⟩ <;> simp_all
  case false =>
    simp only [Bool.false_eq_true, if_false, hdel, hpurge, if_true,
      Option.map_some]
    cases hf2 : f.statusDeleting
    case true =>
      refine ⟨?_, ?_, ?_, ?_⟩ <;> simp_all
    case false =>
      cases hf3 : f.getSecretDelete
      case true =>
        refine ⟨?_, ?_, ?_, ?_⟩ <;> simp_all
      case false =>
        cases hs : w.secret
        case none =>
          cases hf5 : f.updateRemoveFinalizer
          case true =>
            refine ⟨?_, ?_, ?_, ?_⟩ <;> simp_all
          case false =>
            refine ⟨?_, ?_, ?_, ?_⟩ <;> simp_all [List.mem_filter]
        case some =>
          cases hf4 : f.deleteSecret
          case true =>
            refine ⟨?_, ?_, ?_, ?_⟩ <;> simp_all
          case false =>
            cases hf5 : f.updateRemoveFinalizer
            case true =>
              refine ⟨?_, ?_, ?_, ?_⟩ <;> simp_all
            case false =>
              refine ⟨?_, ?_, ?_, ?_⟩ <;> simp_all [List.mem_filter]

/-- Witness for C6 at the concrete deletion scenario: purge enabled,
finalizer set, stored secret present, no faults. -/
theorem reconcile_purge_ordering_witness :
    (Reconcile { cert := some (exCert (some 3) [Finalizer] true false false)
                 secret := some exOldSecret
                 deployments := []
                 nextRV := 8 } "CREATE" 10 2 Faults.noFault).w.secret = none
    ∧ (Reconcile { cert := some (exCert (some 3) [Finalizer] true false false)
                   secret := some exOldSecret
                   deployments := []
                   nextRV := 8 } "CREATE" 10 2 Faults.noFault).requeue = false :=
  ⟨((reconcile_purge_ordering
      { cert := some (exCert (some 3) [Finalizer] true false false)
        secret := some exOldSecret
        deployments := []
        nextRV := 8 } (exCert (some 3) [Finalizer] true false false) "CREATE"
      10 3 2 Faults.noFault rfl rfl rfl (by decide)).2.1 rfl).1,
   ((reconcile_purge_ordering
      { cert := some (exCert (some 3) [Finalizer] true false false)
        secret := some exOldSecret
        deployments := []
        nextRV := 8 } (exCert (some 3) [Finalizer] true false false) "CREATE"
      10 3 2 Faults.noFault rfl rfl rfl (by decide)).2.1 rfl).2.1⟩

/-! ## Claim C9: deletion without purge -/

/-- C9: for a deletion-requested request with purgeOnDelete disabled,
reconcile performs no issuance and no operation on the stored material
or the deployments under any fault schedule, leaves the finalizer list
unchanged, and — when the initial status write succeeds — returns no
requeue and no error. The material persists, orphaned by design. -/
theorem reconcile_orphans_material (w : World) (c : CertificateObj) (ev : String)
    (now t : Int) (nonce : Nat) (f : Faults)
    (hc : w.cert = some c) (hdel : c.deletionTimestamp = some t)
    (hpurge : c.spec.purgeOnDelete = false) :
    (Reconcile w ev now nonce f).w.secret = w.secret
    ∧ (Reconcile w ev now nonce f).issued = 0
    ∧ (Reconcile w ev now nonce f).w.deployments = w.deployments
    ∧ (∀ c2, (Reconcile w ev now nonce f).w.cert = some c2 →
        c2.finalizers = c.finalizers)
    ∧ (f.statusReconciling = false →
        (Reconcile w ev now nonce f).err = none
        ∧ (Reconcile w ev now nonce f).requeue = false
        ∧ (Reconcile w ev now nonce f).requeueAfter = 0) := by
  unfold Reconcile SetStatus
  rw [hc]
  cases hf1 : f.statusReconciling
  case true =>
    refine ⟨?_, ?_, ?_, ?_, ?_⟩ <;> simp_all
  case false =>
    simp only [Bool.false_eq_true, if_false, hdel, hpurge, Option.map_some]
    refine ⟨?_, ?_, ?_, ?_, ?_⟩ <;> simp_all

/-- Witness for C9 at the concrete deletion scenario with purge off. -/
theorem reconcile_orphans_material_witness :
    (Reconcile { cert := some (exCert (some 3) [Finalizer] false false false)
                 secret := some exOldSecret
                 deployments := []
                 nextRV := 8 } "CREATE" 10 2 Faults.noFault).w.secret
      = ({ cert := some (exCert (some 3) [Finalizer] false false false)
           secret := some exOldSecret
           deployments := []
           nextRV := 8 } : World).secret
    ∧ (Reconcile { cert := some (exCert (some 3) [Finalizer] false false false)
                   secret := some exOldSecret
                   deployments := []
                   nextRV := 8 } "CREATE" 10 2 Faults.noFault).issued = 0 :=
  ⟨(reconcile_orphans_material
      { cert := some (exCert (some 3) [Finalizer] false false false)
        secret := some exOldSecret
        deployments := []
        nextRV := 8 } (exCert (some 3) [Finalizer] false false false) "CREATE"
      10 3 2 Faults.noFault rfl rfl rfl).1,
   (reconcile_orphans_material
      { cert := some (exCert (some 3) [Finalizer] false false false)
        secret := some exOldSecret
        deployments := []
        nextRV := 8 } (exCert (some 3) [Finalizer] false false false) "CREATE"
      10 3 2 Faults.noFault rfl rfl rfl).2.1⟩

/-! ## Claim C7: at most one issuance per invocation -/

theorem handleCreateIssue_issued_le (w : World) (inst : CertificateObj)
    (now : Int) (nonce : Nat) (f : Faults) :
    (handleCreateIssue w inst now nonce f).issued ≤ 1 := by
  unfold handleCreateIssue
  repeat (any_goals (first | split | simp))

theorem handleCreateIssue_noFault_issued (w : World) (inst : CertificateObj)
    (now : Int) (nonce : Nat) (d : Int)
    (hval : ParseDuration inst.spec.validity = Except.ok d) :
    (handleCreateIssue w inst now nonce Faults.noFault).issued = 1 := by
  unfold handleCreateIssue CreateOrUpdateSecret addEnvToDeployments
  rw [hval]
  simp only [Faults.noFault, Bool.false_eq_true, if_false]
  repeat (any_goals (first | split | simp))

theorem handleCreate_issued_le (w : World) (inst : CertificateObj)
    (ev : String) (now : Int) (nonce : Nat) (f : Faults) :
    (handleCreate w inst ev now nonce f).issued ≤ 1 := by
  unfold handleCreate
  repeat (any_goals (first
    | exact handleCreateIssue_issued_le _ _ _ _ _
    | split
    | simp))

/-- C7: whatever combination of conditions holds, one reconcile
invocation calls the certificate generator at most once; and in the
simultaneous spec-change-and-expiry state (update event flag set,
stored material present and expired, fault-free stores, parsable
validity) it regenerates exactly once, never twice. -/
theorem reconcile_single_issuance (w : World) (ev : String) (now : Int)
    (nonce : Nat) (f : Faults) :
    (Reconcile w ev now nonce f).issued ≤ 1
    ∧ (∀ c s b d, w.cert = some c → c.deletionTimestamp = none →
        w.secret = some s → getData s.data "tls.crt" = some b →
        IsCertificateExpired b now = Except.ok true →
        ev = EventUpdate → f = Faults.noFault →
        ParseDuration c.spec.validity = Except.ok d →
        (Reconcile w ev now nonce f).issued = 1) := by
  constructor
  · unfold Reconcile
    repeat (any_goals (first
      | exact handleCreate_issued_le _ _ _ _ _ _
      | split
      | simp))
  · intro c s b d hc hact hs hb hexp hev hf hval
    subst hev hf
    unfold Reconcile SetStatus handleCreate
    rw [hc]
    simp only [Faults.noFault, Bool.false_eq_true, if_false, hact,
      Option.map_some, hs, beq_self_eq_true, if_true]
    repeat (any_goals (first
      | exact handleCreateIssue_noFault_issued _ _ _ _ d hval
      | split))

/-- Witness for C7: the simultaneous spec-change-and-expiry scenario at
the concrete expired world issues exactly once. -/
theorem reconcile_single_issuance_witness :
    (Reconcile (exExpiredWorld true) "UPDATE" 10 2 Faults.noFault).issued = 1 :=
  (reconcile_single_issuance (exExpiredWorld true) "UPDATE" 10 2
      Faults.noFault).2
    (exCert none [] false false true) exOldSecret
    (Bytes.pemCert "example.org" 0 5 1) 3600000000000
    rfl rfl rfl rfl rfl rfl rfl rfl

/-! ## Claim C10: stored secret without tls.crt -/

/-- C10: when the stored secret exists but has no tls.crt entry and the
invocation is not an update-event one, reconcile succeeds without
issuing or repairing anything — handleCreate returns zero duration and
no error, so the phase becomes Deployed with an expiry timestamp equal
to the current time, and with rotateOnExpiry enabled the requeue hint is
after zero, an immediate re-invocation. -/
theorem missing_tls_crt_noop (w : World) (c : CertificateObj) (s : SecretObj)
    (ev : String) (now : Int) (nonce : Nat)
    (hc : w.cert = some c) (hact : c.deletionTimestamp = none)
    (hs : w.secret = some s) (hnocrt : getData s.data "tls.crt" = none)
    (hev : ev ≠ EventUpdate) :
    (Reconcile w ev now nonce Faults.noFault).issued = 0
    ∧ (Reconcile w ev now nonce Faults.noFault).w.secret = w.secret
    ∧ (Reconcile w ev now nonce Faults.noFault).err = none
    ∧ (∀ c2, (Reconcile w ev now nonce Faults.noFault).w.cert = some c2 →
        c2.status.status = "Deployed" ∧ c2.status.expiryDate = now)
    ∧ (c.spec.rotateOnExpiry = true →
        (Reconcile w ev now nonce Faults.noFault).requeue = true
        ∧ (Reconcile w ev now nonce Faults.noFault).requeueAfter = 0)
    ∧ (c.spec.rotateOnExpiry = false →
        (Reconcile w ev now nonce Faults.noFault).requeue = false) := by
  have hbev : (ev == EventUpdate) = false := by
    simpa using hev
  unfold Reconcile SetStatus handleCreate
  rw [hc]
  simp only [Faults.noFault, Bool.false_eq_true, if_false, hact,
    Option.map_some, hs, hbev, hnocrt]
  cases hrot : c.spec.rotateOnExpiry
  case true =>
    refine ⟨?_, ?_, ?_, ?_, ?_, ?_⟩ <;> simp_all
  case false =>
    refine ⟨?_, ?_, ?_, ?_, ?_, ?_⟩ <;> simp_all

/-- Witness for C10 at a concrete secret lacking tls.crt, with
rotateOnExpiry enabled. -/
theorem missing_tls_crt_noop_witness :
    (Reconcile { cert := some (exCert none [] false false true)
                 secret := some { name := "test-secret"
                                  ns := "default"
                                  secretType := "Opaque"
                                  data := [("foo", Bytes.raw [1])]
                                  resourceVersion := 7 }
                 deployments := []
                 nextRV := 8 } "CREATE" 10 2 Faults.noFault).issued = 0
    ∧ ((exCert none [] false false true).spec.rotateOnExpiry = true →
        (Reconcile { cert := some (exCert none [] false false true)
                     secret := some { name := "test-secret"
                                      ns := "default"
                                      secretType := "Opaque"
                                      data := [("foo", Bytes.raw [1])]
                                      resourceVersion := 7 }
                     deployments := []
                     nextRV := 8 } "CREATE" 10 2 Faults.noFault).requeue = true
        ∧ (Reconcile { cert := some (exCert none [] false false true)
                       secret := some { name := "test-secret"
                                        ns := "default"
                                        secretType := "Opaque"
                                        data := [("foo", Bytes.raw [1])]
                                        resourceVersion := 7 }
                       deployments := []
                       nextRV := 8 } "CREATE" 10 2
            Faults.noFault).requeueAfter = 0) :=
  ⟨(missing_tls_crt_noop _ (exCert none [] false false true)
      { name := "test-secret"
        ns := "default"
        secretType := "Opaque"
        data := [("foo", Bytes.raw [1])]
        resourceVersion := 7 } "CREATE" 10 2 rfl rfl rfl rfl
      (by decide)).1,
   (missing_tls_crt_noop _ (exCert none [] false false true)
      { name := "test-secret"
        ns := "default"
        secretType := "Opaque"
        data := [("foo", Bytes.raw [1])]
        resourceVersion := 7 } "CREATE" 10 2 rfl rfl rfl rfl
      (by decide)).2.2.2.2.1⟩

/-! ## Claim C8: idempotence on material and the global event flag -/

theorem reconcile_creates_material (w : World) (c : CertificateObj) (d : Int)
    (ev : String) (now : Int) (nonce : Nat)
    (hc : w.cert = some c) (hact : c.deletionTimestamp = none)
    (hsec : w.secret = none)
    (hval : ParseDuration c.spec.validity = Except.ok d) :
    (Reconcile w ev now nonce Faults.noFault).issued = 1
    ∧ (Reconcile w ev now nonce Faults.noFault).w.secret = some
        { name := c.spec.secretRefName
          ns := c.ns
          secretType := "kubernetes.io/tls"
          data := [("tls.crt",
                     (CreateSelfSignedCertificate c.spec.dnsName d now nonce).1),
                   ("tls.key",
                     (CreateSelfSignedCertificate c.spec.dnsName d now nonce).2)]
          resourceVersion := w.nextRV }
    ∧ ∃ c2, (Reconcile w ev now nonce Faults.noFault).w.cert = some c2
        ∧ c2.spec = c.spec ∧ c2.deletionTimestamp = none := by
  cases hpu : c.spec.purgeOnDelete <;>
    cases hre : c.spec.reloadOnChange <;>
      cases hro : c.spec.rotateOnExpiry <;>
        (unfold Reconcile SetStatus handleCreate handleCreateIssue
          CreateOrUpdateSecret addEnvToDeployments
         rw [hc]
         simp_all [Faults.noFault])

theorem reconcile_unexpired_noop (w2 : World) (c2 : CertificateObj)
    (s2 : SecretObj) (dns : String) (nb na : Int) (k : Nat) (d2 : Int)
    (ev2 : String) (now2 : Int) (n2 : Nat)
    (hc : w2.cert = some c2) (hact : c2.deletionTimestamp = none)
    (hs : w2.secret = some s2)
    (hcrt : getData s2.data "tls.crt" = some (Bytes.pemCert dns nb na k))
    (hexp : ¬ na < now2) (hev : ev2 ≠ EventUpdate)
    (hval : ParseDuration c2.spec.validity = Except.ok d2) :
    (Reconcile w2 ev2 now2 n2 Faults.noFault).issued = 0
    ∧ (Reconcile w2 ev2 now2 n2 Faults.noFault).w.secret = w2.secret := by
  have hbev : (ev2 == EventUpdate) = false := by
    simpa using hev
  have hie : IsCertificateExpired (Bytes.pemCert dns nb na k) now2
      = Except.ok false := by
    unfold IsCertificateExpired pemDecode parseCertificate
    simp [hexp]
  cases hro : c2.spec.rotateOnExpiry <;>
    (unfold Reconcile SetStatus handleCreate
     rw [hc]
     simp_all [Faults.noFault])

theorem reconcile_update_flag_rewrite (w2 : World) (c2 : CertificateObj)
    (s2 : SecretObj) (d2 : Int) (now2 : Int) (n2 : Nat)
    (hc : w2.cert = some c2) (hact : c2.deletionTimestamp = none)
    (hs : w2.secret = some s2)
    (hval : ParseDuration c2.spec.validity = Except.ok d2) :
    (Reconcile w2 EventUpdate now2 n2 Faults.noFault).issued = 1
    ∧ (Reconcile w2 EventUpdate now2 n2 Faults.noFault).w.secret
      = some { s2 with resourceVersion := w2.nextRV } := by
  cases hpu : c2.spec.purgeOnDelete <;>
    cases hre : c2.spec.reloadOnChange <;>
      cases hro : c2.spec.rotateOnExpiry <;>
        (unfold Reconcile SetStatus handleCreate handleCreateIssue
          CreateOrUpdateSecret addEnvToDeployments
         rw [hc]
         simp_all [Faults.noFault])

/-- C8 counterexample: after a first reconcile created the material, a
second reconcile of the same unchanged, unexpired request performs one
issuance — not none — when the process-wide event flag was left at
UPDATE by an event on another request, refuting the claim that the
second reconcile performs no issuance regardless of that flag. -/
theorem second_reconcile_issues_under_update_flag :
    (Reconcile (Reconcile { cert := some (exCert none [] false false false)
                            secret := none
                            deployments := []
                            nextRV := 1 } "CREATE" 0 5 Faults.noFault).w
      "UPDATE" 10 6 Faults.noFault).issued = 1 := by
  decide

/-- C8 amended: a first reconcile with no stored material creates exactly
one stored material; a second reconcile with no spec change and
unexpired material always leaves the stored material bytes identical,
and performs no issuance when the process-wide last-event flag is not
UPDATE — but when that flag holds UPDATE (left by an event on any
request) the second reconcile performs one issuance, whose output is
discarded by the secret-store write path so that only the resource
version changes and the stored bytes stay identical. -/
theorem reconcile_idempotent_amended (w : World) (c : CertificateObj) (d : Int)
    (ev1 : String) (now1 : Int) (n1 : Nat)
    (hc : w.cert = some c) (hact : c.deletionTimestamp = none)
    (hsec : w.secret = none)
    (hval : ParseDuration c.spec.validity = Except.ok d) :
    ((Reconcile w ev1 now1 n1 Faults.noFault).issued = 1
      ∧ (Reconcile w ev1 now1 n1 Faults.noFault).w.secret ≠ none)
    ∧ (∀ ev2 now2 n2, ev2 ≠ EventUpdate → ¬ now1 + d < now2 →
        (Reconcile (Reconcile w ev1 now1 n1 Faults.noFault).w ev2 now2 n2
            Faults.noFault).issued = 0
        ∧ (Reconcile (Reconcile w ev1 now1 n1 Faults.noFault).w ev2 now2 n2
            Faults.noFault).w.secret
          = (Reconcile w ev1 now1 n1 Faults.noFault).w.secret)
    ∧ (∀ now2 n2,
        (Reconcile (Reconcile w ev1 now1 n1 Faults.noFault).w EventUpdate
            now2 n2 Faults.noFault).issued = 1
        ∧ ((Reconcile (Reconcile w ev1 now1 n1 Faults.noFault).w EventUpdate
            now2 n2 Faults.noFault).w.secret.map SecretObj.data)
          = ((Reconcile w ev1 now1 n1 Faults.noFault).w.secret.map
              SecretObj.data)) := by
  obtain ⟨h1, h2, c2, hcert2, hspec2, hact2⟩ :=
    reconcile_creates_material w c d ev1 now1 n1 hc hact hsec hval
  have hcrt2 : getData
      ({ name := c.spec.secretRefName
         ns := c.ns
         secretType := "kubernetes.io/tls"
         data := [("tls.crt",
                    (CreateSelfSignedCertificate c.spec.dnsName d now1 n1).1),
                  ("tls.key",
                    (CreateSelfSignedCertificate c.spec.dnsName d now1 n1).2)]
         resourceVersion := w.nextRV } : SecretObj).data "tls.crt"
      = some (Bytes.pemCert c.spec.dnsName now1 (now1 + d) n1) := by
    simp [getData, List.find?, CreateSelfSignedCertificate, GetTemplate]
  have hval2 : ParseDuration c2.spec.validity = Except.ok d := by
    rw [hspec2]
    exact hval
  refine ⟨⟨h1, by rw [h2]; simp⟩, ?_, ?_⟩
  · intro ev2 now2 n2 hev2 hexp2
    exact reconcile_unexpired_noop _ c2 _ c.spec.dnsName now1 (now1 + d) n1 d
      ev2 now2 n2 hcert2 hact2 (by rw [h2]) (by rw [hcrt2]) hexp2 hev2 hval2
  · intro now2 n2
    obtain ⟨hu1, hu2⟩ := reconcile_update_flag_rewrite _ c2 _ d now2 n2
      hcert2 hact2 h2 hval2
    refine ⟨hu1, ?_⟩
    rw [hu2, h2]
    simp

/-- Witness for the amended C8 at the concrete create-then-reconcile
scenario: the first invocation issues once, a second invocation without
the update flag issues nothing. -/
theorem reconcile_idempotent_amended_witness :
    (Reconcile { cert := some (exCert none [] false false false)
                 secret := none
                 deployments := []
                 nextRV := 1 } "CREATE" 0 5 Faults.noFault).issued = 1
    ∧ (Reconcile (Reconcile { cert := some (exCert none [] false false false)
                              secret := none
                              deployments := []
                              nextRV := 1 } "CREATE" 0 5 Faults.noFault).w
        "CREATE" 10 6 Faults.noFault).issued = 0 :=
  ⟨(reconcile_idempotent_amended _ (exCert none [] false false false)
      3600000000000 "CREATE" 0 5 rfl rfl rfl rfl).1.1,
   ((reconcile_idempotent_amended _ (exCert none [] false false false)
      3600000000000 "CREATE" 0 5 rfl rfl rfl rfl).2.1 "CREATE" 10 6
      (by decide) (by decide)).1⟩

end CertManager
